import Mathlib

inductive JVal where
  | null
  | s (v : String)
  | i (v : Int)
  | obj (fields : List (String × JVal))

/-- First field with the given key, if any. -/
def lookupField : List (String × JVal) → String → Option JVal
  | [], _ => none
  | (k, v) :: rest, key => if k = key then some v else lookupField rest key

/-- Python exceptions that the modelled code can raise. -/
inductive PyErr where
  | jsonDecodeError
  | attributeError (msg : String)
  | keyError (key : String)
  | typeError (msg : String)
  | indexError

/-- Message used when an exception is rendered with str(e). -/
def PyErr.toMessage : PyErr → String
  | .jsonDecodeError => "Expecting value"
  | .attributeError m => m
  | .keyError k => k
  | .typeError m => m
  | .indexError => "list index out of range"

/-- Python d.get(key): on a dict returns the value (None when the key is
absent); on any other value raises AttributeError. -/
def jGet (v : JVal) (key : String) : Except PyErr JVal :=
  match v with
  | .obj fields => .ok ((lookupField fields key).getD .null)
  | _ => .error (.attributeError "object has no attribute get")

/-- Python d.get(key, dflt): the default is used only when the key is
absent; a present null value is returned as null. -/
def jGetD (v : JVal) (key : String) (dflt : JVal) : Except PyErr JVal :=
  match v with
  | .obj fields => .ok ((lookupField fields key).getD dflt)
  | _ => .error (.attributeError "object has no attribute get")

/-- Python d[key]: KeyError when the key is absent from a dict, TypeError
when the value is not a dict at all. -/
def jIndex (v : JVal) (key : String) : Except PyErr JVal :=
  match v with
  | .obj fields =>
      match lookupField fields key with
      | some x => .ok x
      | none => .error (.keyError key)
  | _ => .error (.typeError "value is not subscriptable")

/-- Normalized event record written by handle_webhook (webhook_server.py
lines 22-30).  timestamp and event_type are always strings; the payload
fields hold whatever JSON the sender supplied. -/
structure Event where
  timestamp : String
  event_type : String
  action : JVal
  workflow_run : JVal
  check_run : JVal
  repository : JVal
  sender : JVal

/-- Content of a file on disk as the program sees it: either text that
parses as a JSON array of event records, or text that json.load rejects. -/
inductive StoredFile where
  | events (es : List Event)
  | corrupt (raw : String)

/-- Filesystem: paths (component lists, relative to the repository root)
to file contents. -/
abbrev FS := List String → Option StoredFile

def emptyFS : FS := fun _ => none

def updateFS (fs : FS) (p : List String) (c : StoredFile) : FS :=
  fun q => if q = p then some c else fs q

/-- Python json.load on an open file: the parsed array, or a raised
json.JSONDecodeError for content that is not valid JSON. -/
def jsonLoad : StoredFile → Except PyErr (List Event)
  | .events es => .ok es
  | .corrupt _ => .error .jsonDecodeError

/-- EVENTS_FILE of webhook_server.py (line 12): the file's directory is
app/, so parent.parent/"data"/"github_events"/"github_events.json" is
data/github_events/github_events.json under the repository root. -/
def EVENTS_FILE_WEBHOOK : List String := ["data", "github_events", "github_events.json"]

/-- EVENTS_FILE of server.py (line 24): parent/"github_events.json" from
app/server.py is app/github_events.json under the repository root. -/
def EVENTS_FILE_SERVER : List String := ["app", "github_events.json"]

/-- Python xs[-n:] for a natural n, i.e. the last min(n, length) elements. -/
def lastN (n : Nat) (xs : List α) : List α := xs.drop (xs.length - n)

/-- Effect of webhook_server.py lines 38-39 on the stored array:
events.append(event) followed by events = events[-100:]. -/
def appendEvent (log : List Event) (e : Event) : List Event :=
  lastN 100 (log ++ [e])

/-- Stored array after a sequence of successful webhook deliveries
starting from an absent file (each delivery loads the array, appends one
event, truncates to the last 100 and rewrites the file). -/
def runAppends (es : List Event) : List Event := es.foldl appendEvent []

/-- Incoming HTTP request as handle_webhook sees it: the body (none when
await request.json() raises), the X-GitHub-Event header, and the clock
value used for datetime.now().isoformat(). -/
structure Request where
  body : Option JVal
  eventHeader : Option String
  now : String

structure HttpResponse where
  status : Nat
  payload : JVal

def okResponse : HttpResponse := ⟨200, .obj [("status", .s "received")]⟩

def errResponse (e : PyErr) : HttpResponse := ⟨400, .obj [("error", .s e.toMessage)]⟩

/-- Lines 22-30 of webhook_server.py: build the event dict from the parsed
body.  Each .get chain can raise AttributeError when the value it is
called on is not a dict (e.g. a string-valued repository field). -/
def extractEvent (now : String) (eventType : String) (data : JVal) : Except PyErr Event := do
  let act ← jGet data "action"
  let wr ← jGet data "workflow_run"
  let cr ← jGet data "check_run"
  let repoObj ← jGetD data "repository" (.obj [])
  let repo ← jGet repoObj "full_name"
  let senderObj ← jGetD data "sender" (.obj [])
  let sendr ← jGet senderObj "login"
  pure { timestamp := now, event_type := eventType, action := act,
         workflow_run := wr, check_run := cr, repository := repo, sender := sendr }

/-- Lines 32-36 of webhook_server.py: events = [], then json.load of the
file when it exists (a corrupt file raises inside the try block). -/
def readStored (fs : FS) : Except PyErr (List Event) :=
  match fs EVENTS_FILE_WEBHOOK with
  | none => .ok []
  | some sf => jsonLoad sf

/-- Body of the try block of handle_webhook (webhook_server.py lines
19-45): parse the body, build the event, load-append-truncate-rewrite the
stored array, answer 200. -/
def webhookTry (fs : FS) (req : Request) : Except PyErr (FS × HttpResponse) := do
  let data ← match req.body with
    | some v => pure v
    | none => Except.error PyErr.jsonDecodeError
  let ev ← extractEvent req.now (req.eventHeader.getD "unknown") data
  let old ← readStored fs
  pure (updateFS fs EVENTS_FILE_WEBHOOK (.events (appendEvent old ev)), okResponse)

/-- handle_webhook (webhook_server.py lines 17-47): any exception in the
try block is answered with status 400 and an error payload, leaving the
filesystem unchanged. -/
def handle_webhook (fs : FS) (req : Request) : FS × HttpResponse :=
  match webhookTry fs req with
  | .ok r => r
  | .error e => (fs, errResponse e)

/-- Python xs[i:] slice start semantics: a negative index counts from the
end and clamps at 0, a non-negative index clamps at the length. -/
def pySliceFrom (idx : Int) (xs : List α) : List α :=
  if idx < 0 then xs.drop (((xs.length : Int) + idx).toNat) else xs.drop idx.toNat

/-- Hashable Python values that can serve as dict keys in this model (a
dict used as a key raises TypeError). -/
inductive PyKey where
  | null
  | s (v : String)
  | i (v : Int)
deriving DecidableEq

/-- Hashing a value when it is used as a dict key (name not in workflows /
workflows[name] = record in server.py lines 188-196). -/
def toKey : JVal → Except PyErr PyKey
  | .null => .ok .null
  | .s v => .ok (.s v)
  | .i v => .ok (.i v)
  | .obj _ => .error (.typeError "unhashable type")

/-- Record stored per workflow name by get_workflow_status (server.py
lines 189-196). -/
structure RunRec where
  name : JVal
  status : JVal
  conclusion : JVal
  run_number : JVal
  updated_at : JVal
  html_url : JVal

/-- Python dict as an insertion-ordered association list. -/
abbrev Workflows := List (PyKey × RunRec)

/-- First value bound to the key, if any. -/
def assocFind {α : Type} [DecidableEq α] {β : Type} : List (α × β) → α → Option β
  | [], _ => none
  | (a, b) :: rest, k => if a = k then some b else assocFind rest k

/-- Python dict assignment d[k] = v: replace in place when the key is
present, append at the end otherwise. -/
def assocSet {α : Type} [DecidableEq α] {β : Type} : List (α × β) → α → β → List (α × β)
  | [], k, v => [(k, v)]
  | (a, b) :: rest, k, v => if a = k then (k, v) :: rest else (a, b) :: assocSet rest k v

/-- Boolean lexicographic comparison of character lists, mirroring the
order underlying String comparison. -/
def charsLtb : List Char → List Char → Bool
  | [], [] => false
  | [], _ :: _ => true
  | _ :: _, [] => false
  | c :: cs, d :: ds =>
      if c < d then true
      else if d < c then false
      else charsLtb cs ds

/-- Boolean strict comparison of strings (lexicographic by code point,
which is also what Python string comparison does). -/
def strLtb (a b : String) : Bool := charsLtb a.data b.data

/-- Python a > b on JSON values: defined for two strings and two ints;
any other combination raises TypeError. -/
def pyGt (a b : JVal) : Except PyErr Bool :=
  match a, b with
  | .s x, .s y => .ok (strLtb y x)
  | .i x, .i y => .ok (decide (y < x))
  | _, _ => .error (.typeError "unorderable types")

/-- Loop body of get_workflow_status (server.py lines 185-196) for one
event's workflow_run value: read run["name"], keep the new record when the
name is new or run["updated_at"] is strictly greater than the stored one,
building the record from run["status"], run.get("conclusion"),
run["run_number"], run["updated_at"], run["html_url"]. -/
def wsStep (ws : Workflows) (run : JVal) : Except PyErr Workflows := do
  let nameV ← jIndex run "name"
  let key ← toKey nameV
  let repl ← match assocFind ws key with
    | none => pure true
    | some prev => do
        let upd ← jIndex run "updated_at"
        pyGt upd prev.updated_at
  if repl then do
    let status ← jIndex run "status"
    let concl ← jGet run "conclusion"
    let rn ← jIndex run "run_number"
    let upd ← jIndex run "updated_at"
    let hu ← jIndex run "html_url"
    pure (assocSet ws key ⟨nameV, status, concl, rn, upd, hu⟩)
  else
    pure ws

/-- Python truthiness of the optional workflow_name argument: None and the
empty string are falsy. -/
def pyTruthy (o : Option String) : Bool :=
  match o with
  | none => false
  | some v => !v.isEmpty

/-- Python v == t for a JSON value v and a string t: true exactly when v
is the same string; None, ints and dicts never equal a string. -/
def jEqStr (v : JVal) (t : String) : Bool :=
  match v with
  | .s u => u == t
  | _ => false

def JVal.isNull : JVal → Bool
  | .null => true
  | _ => false

/-- Lines 180-198 of server.py once events is loaded: select events whose
workflow_run is not None, or — when the filter argument is truthy — the
events whose whole workflow_run value equals the filter string (line 182
compares e.get("workflow_run") == workflow_name), then fold the per-run
update over the selection. -/
def getWSCore (events : List Event) (filt : Option String) : Except PyErr Workflows :=
  let wfEvents :=
    if pyTruthy filt then events.filter (fun e => jEqStr e.workflow_run (filt.getD ""))
    else events.filter (fun e => !e.workflow_run.isNull)
  wfEvents.foldlM (fun ws e => wsStep ws e.workflow_run) []

/-- Values a query tool can serialize back with json.dumps. -/
inductive ToolResult where
  | message (text : String)
  | events (es : List Event)
  | workflows (ws : Workflows)

def noEventsMsg : String := "No GitHub Actions events received yet"

/-- get_recent_actions_events (server.py lines 152-166): message when the
file does not exist, otherwise json.load (no surrounding try, so a raised
error escapes the tool) and the slice events[-limit:]. -/
def get_recent_actions_events (fs : FS) (limit : Int) : Except PyErr ToolResult :=
  match fs EVENTS_FILE_SERVER with
  | none => .ok (.message noEventsMsg)
  | some sf => do
      let events ← jsonLoad sf
      pure (.events (pySliceFrom (-limit) events))

/-- get_workflow_status (server.py lines 169-198): message when the file
does not exist or the loaded array is empty, otherwise the per-workflow
fold (again with no surrounding try). -/
def get_workflow_status (fs : FS) (workflowName : Option String) : Except PyErr ToolResult :=
  match fs EVENTS_FILE_SERVER with
  | none => .ok (.message noEventsMsg)
  | some sf => do
      let events ← jsonLoad sf
      if events.isEmpty then pure (.message noEventsMsg)
      else do
        let ws ← getWSCore events workflowName
        pure (.workflows ws)

/-- DEFAULT_TEMPLATES of server.py (lines 14-22). -/
def DEFAULT_TEMPLATES : List (String × String) :=
  [("bug.md", "Bug Fix"), ("feature.md", "Feature"), ("docs.md", "Documentation"),
   ("refactor.md", "Refactor"), ("test.md", "Test"), ("performance.md", "Performance"),
   ("security.md", "Security")]

/-- TYPE_MAPPING of server.py (lines 26-40). -/
def TYPE_MAPPING : List (String × String) :=
  [("bug", "bug.md"), ("fix", "bug.md"), ("feature", "feature.md"),
   ("enhancement", "feature.md"), ("docs", "docs.md"), ("documentation", "docs.md"),
   ("refactor", "refactor.md"), ("cleanup", "refactor.md"), ("test", "test.md"),
   ("testing", "test.md"), ("performance", "performance.md"),
   ("optimization", "performance.md"), ("security", "security.md")]

structure TemplateInfo where
  filename : String
  ttype : String
  content : String

def attrItemMsg : String := "dict object has no attribute item"

/-- get_pr_templates (server.py lines 111-122).  The list comprehension
iterates over DEFAULT_TEMPLATES.item(); a Python dict has the method
items, not item, so evaluating the iterable raises AttributeError before
any template is read (line 118 would likewise call the nonexistent
Path.readtext instead of read_text).  The tool therefore always raises. -/
def get_pr_templates : Except PyErr (List TemplateInfo) :=
  .error (.attributeError attrItemMsg)

/-- suggest_template (server.py lines 125-149): awaits get_pr_templates,
maps change_type.lower() through TYPE_MAPPING with fallback feature.md,
selects the matching template (default templates[0], whose evaluation
raises IndexError on an empty list) and builds the suggestion object.
The leading await propagates the AttributeError raised by
get_pr_templates, so the code after it never runs.  (The reasoning string
of line 144 is reproduced without the quote characters around the
summary.) -/
def suggest_template (changesSummary changeType : String) : Except PyErr JVal := do
  let templates ← get_pr_templates
  let templateFile := (assocFind TYPE_MAPPING changeType.toLower).getD "feature.md"
  let dflt ← match templates.head? with
    | some t => pure t
    | none => Except.error PyErr.indexError
  let selected := (templates.find? (fun t => t.filename == templateFile)).getD dflt
  pure (.obj
    [("recommended_template", .obj
        [("filename", .s selected.filename), ("type", .s selected.ttype),
         ("content", .s selected.content)]),
     ("reasoning", .s ("Based on your analysis: " ++ changesSummary ++
        ", this appears to be a " ++ changeType ++ " change.")),
     ("template_content", .s selected.content),
     ("usage_hint", .s "Claude can help you fill out this template based on the specific changes in your PR.")])

/-- Well-formed webhook request used in several concrete evaluations. -/
def goodReq : Request :=
  ⟨some (.obj [("action", .s "completed")]), some "workflow_run", "2024-05-05T00:00:00"⟩

/-- Event that handle_webhook builds from goodReq. -/
def goodEv : Event :=
  ⟨"2024-05-05T00:00:00", "workflow_run", .s "completed", .null, .null, .null, .null⟩

def fsThree : FS :=
  updateFS emptyFS EVENTS_FILE_SERVER
    (.events [⟨"1", "a", .null, .null, .null, .null, .null⟩,
              ⟨"2", "b", .null, .null, .null, .null, .null⟩,
              ⟨"3", "c", .null, .null, .null, .null, .null⟩])

def fsEmptyStore : FS := updateFS emptyFS EVENTS_FILE_SERVER (.events [])

/-- Request whose body is valid JSON (an object) but whose repository
field is a string: data.get("repository", ...).get("full_name") then
raises AttributeError inside the try block. -/
def badReq : Request :=
  ⟨some (.obj [("repository", .s "octo/repo")]), some "push", "2024-01-01T00:00:00"⟩

/-- Request whose body is not valid JSON. -/
def reqNone : Request := ⟨none, none, "2024-01-01T00:00:00"⟩

/-- Store file that exists but is not valid JSON. -/
def fsCorrupt : FS := updateFS emptyFS EVENTS_FILE_SERVER (.corrupt "this is not JSON")

/-- Total field access on a JSON value: the field's value on an object
with that key, null otherwise.  Used to describe the records the fold of
get_workflow_status builds out of well-shaped run objects. -/
def jField (v : JVal) (key : String) : JVal :=
  match v with
  | .obj fields => (lookupField fields key).getD .null
  | _ => .null

/-- Name string of a run object (empty when absent or not a string). -/
def runName (v : JVal) : String :=
  match jField v "name" with
  | .s u => u
  | _ => ""

/-- updated_at string of a run object (empty when absent or not a string). -/
def runUpdatedAt (v : JVal) : String :=
  match jField v "updated_at" with
  | .s u => u
  | _ => ""

/-- Record the fold stores for a run object (server.py lines 189-196):
the values of name, status, conclusion (via .get), run_number, updated_at
and html_url. -/
def parseRun (v : JVal) : RunRec :=
  ⟨jField v "name", jField v "status", jField v "conclusion", jField v "run_number",
   jField v "updated_at", jField v "html_url"⟩

/-- updated_at of a stored record, as the string the comparison uses. -/
def wsUpd (r : RunRec) : String :=
  match r.updated_at with
  | .s u => u
  | _ => ""

/-- Run objects on which the loop body of get_workflow_status runs
without raising: an object carrying a string name, a string updated_at,
and status, run_number and html_url keys (conclusion is read with .get
and may be absent). -/
def goodRun (v : JVal) : Bool :=
  match v with
  | .obj fields =>
      (match lookupField fields "name" with | some (.s _) => true | _ => false)
      && (match lookupField fields "updated_at" with | some (.s _) => true | _ => false)
      && (lookupField fields "status").isSome
      && (lookupField fields "run_number").isSome
      && (lookupField fields "html_url").isSome
  | _ => false

/-- Pure form of the loop body on a well-shaped run object: keep the new
record when the name is new or strictly fresher. -/
def pureStep (ws : Workflows) (v : JVal) : Workflows :=
  match assocFind ws (PyKey.s (runName v)) with
  | none => assocSet ws (PyKey.s (runName v)) (parseRun v)
  | some prev =>
      if wsUpd prev < runUpdatedAt v then assocSet ws (PyKey.s (runName v)) (parseRun v)
      else ws

/-- Stored records whose updated_at is a string (what the fold produces
from well-shaped runs, and what the strict comparison needs). -/
def goodWS (ws : Workflows) : Prop := ∀ p ∈ ws, ∃ u, (p.2).updated_at = JVal.s u

/-- Sample run objects realizing the latest-wins example of the spec. -/
def sampleRun1 : JVal :=
  .obj [("name", .s "CI"), ("status", .s "completed"), ("conclusion", .s "failure"),
        ("run_number", .i 41), ("updated_at", .s "2024-01-01T00:00:00Z"),
        ("html_url", .s "https://example.test/runs/41")]

def sampleRun2 : JVal :=
  .obj [("name", .s "CI"), ("status", .s "completed"), ("conclusion", .s "success"),
        ("run_number", .i 42), ("updated_at", .s "2024-01-02T00:00:00Z"),
        ("html_url", .s "https://example.test/runs/42")]

/-- Stored event carrying the given workflow_run value. -/
def mkWfEvent (run : JVal) : Event := ⟨"t", "workflow_run", .null, run, .null, .null, .null⟩

def fsCI : FS := updateFS emptyFS EVENTS_FILE_SERVER (.events [mkWfEvent sampleRun1])

def fsTwo : FS :=
  updateFS emptyFS EVENTS_FILE_SERVER (.events [mkWfEvent sampleRun1, mkWfEvent sampleRun2])

/-- Invariant of the pure fold: for every name, the accumulated mapping
holds a record exactly when a processed run bears that name, that record
comes from one of those runs, and its updated_at is maximal among them. -/
def InvP (done : List JVal) (ws : Workflows) : Prop :=
  ∀ nm : String,
    (assocFind ws (PyKey.s nm) = none → ∀ v ∈ done, runName v ≠ nm) ∧
    (∀ r, assocFind ws (PyKey.s nm) = some r →
      ((∃ v ∈ done, runName v = nm ∧ parseRun v = r) ∧
       ∀ v ∈ done, runName v = nm → runUpdatedAt v ≤ wsUpd r))

theorem lastN_append_lastN (n : Nat) (xs ys : List α) :
    lastN n (lastN n xs ++ ys) = lastN n (xs ++ ys) := by
  unfold lastN
  have hle : xs.length - n ≤ xs.length := Nat.sub_le _ _
  rw [← List.drop_append_of_le_length hle, List.drop_drop]
  congr 1
  simp only [List.length_drop, List.length_append]
  omega

theorem runAppends_eq_lastN (es : List Event) : runAppends es = lastN 100 es := by
  induction es using List.reverseRecOn with
  | nil => rfl
  | append_singleton es e ih =>
      unfold runAppends at ih ⊢
      rw [List.foldl_append, List.foldl_cons, List.foldl_nil, ih]
      show lastN 100 (lastN 100 es ++ [e]) = _
      rw [lastN_append_lastN]

/-- C1: for every sequence of N ≥ 0 appends on an initially empty event
log, the stored log is exactly the last min(N, 100) appended events in
arrival order, its length is min(N, 100), and in particular the length
bound 100 holds after every successful append (the statement quantifies
over every sequence, hence over every prefix of a longer sequence). -/
theorem c1_bounded_log (es : List Event) :
    runAppends es = es.drop (es.length - 100) ∧
    (runAppends es).length = min es.length 100 ∧
    (runAppends es).length ≤ 100 := by
  have h := runAppends_eq_lastN es
  refine ⟨h, ?_, ?_⟩ <;> rw [h] <;> simp [lastN] <;> omega

theorem bind_ok_eq {α β : Type} (a : α) (f : α → Except PyErr β) :
    (Except.ok a >>= f) = f a := rfl

theorem bind_err_eq {α β : Type} (e : PyErr) (f : α → Except PyErr β) :
    ((Except.error e : Except PyErr α) >>= f) = .error e := rfl

theorem pure_eq_ok {α : Type} (a : α) : (pure a : Except PyErr α) = .ok a := rfl

/-- C2 (code bug): the writer and the reader do not use the same durable
record.  webhook_server.py writes data/github_events/github_events.json
while server.py reads app/github_events.json, so after a successful
ingestion the event file the tools read still does not exist and
get_recent_actions_events answers "no events yet", while the in-memory
FIFO simulation of the same append yields the one appended event.  This
contradicts webhook_server.py's own docstring ("Stores events in a JSON
file that the MCP server can read"). -/
theorem c2_round_trip_paths :
    EVENTS_FILE_WEBHOOK ≠ EVENTS_FILE_SERVER ∧
    (handle_webhook emptyFS goodReq).2.status = 200 ∧
    (handle_webhook emptyFS goodReq).1 EVENTS_FILE_WEBHOOK = some (.events [goodEv]) ∧
    (handle_webhook emptyFS goodReq).1 EVENTS_FILE_SERVER = none ∧
    get_recent_actions_events (handle_webhook emptyFS goodReq).1 10 =
      .ok (.message noEventsMsg) ∧
    runAppends [goodEv] = [goodEv] :=
  ⟨by decide, rfl, rfl, rfl, rfl, rfl⟩

/-- C3: with the stored log present, the recent-events query with limit
k ≥ 1 returns the suffix of the last k events (all of them when k exceeds
the length) in arrival order. -/
theorem c3_recency_query (fs : FS) (events : List Event) (k : Int)
    (h : fs EVENTS_FILE_SERVER = some (.events events)) (hk : 1 ≤ k) :
    get_recent_actions_events fs k =
      .ok (.events (events.drop (events.length - k.toNat))) := by
  unfold get_recent_actions_events
  rw [h]
  simp only [jsonLoad, bind_ok_eq, pure_eq_ok]
  have hneg : (-k) < 0 := by omega
  rw [pySliceFrom, if_pos hneg]
  have hidx : ((events.length : Int) + -k).toNat = events.length - k.toNat := by omega
  rw [hidx]

theorem c3_recency_query_witness :
    get_recent_actions_events fsThree 2 =
      .ok (.events [⟨"2", "b", .null, .null, .null, .null, .null⟩,
                    ⟨"3", "c", .null, .null, .null, .null, .null⟩]) :=
  c3_recency_query fsThree _ 2 rfl (by decide)

/-- C10: with a non-empty stored log, limit = 0 returns the whole log:
the slice events[-0:] starts at index 0 because -0 is 0. -/
theorem c10_zero_limit (fs : FS) (events : List Event)
    (h : fs EVENTS_FILE_SERVER = some (.events events)) (_hne : events ≠ []) :
    get_recent_actions_events fs 0 = .ok (.events events) := by
  unfold get_recent_actions_events
  rw [h]
  simp only [jsonLoad, bind_ok_eq, pure_eq_ok]
  rw [pySliceFrom]
  norm_num

theorem c10_zero_limit_witness :
    get_recent_actions_events fsThree 0 =
      .ok (.events [⟨"1", "a", .null, .null, .null, .null, .null⟩,
                    ⟨"2", "b", .null, .null, .null, .null, .null⟩,
                    ⟨"3", "c", .null, .null, .null, .null, .null⟩]) :=
  c10_zero_limit fsThree _ rfl (by simp)

/-- C9: on a missing store both queries answer the "no events yet"
message, and on an empty store the recent-events query returns the empty
list while the workflow query answers the message; none of the four cases
is an error. -/
theorem c9_empty_store (fs : FS) (k : Int) (filt : Option String) :
    (fs EVENTS_FILE_SERVER = none →
      get_recent_actions_events fs k = .ok (.message noEventsMsg) ∧
      get_workflow_status fs filt = .ok (.message noEventsMsg)) ∧
    (fs EVENTS_FILE_SERVER = some (.events []) →
      get_recent_actions_events fs k = .ok (.events []) ∧
      get_workflow_status fs filt = .ok (.message noEventsMsg)) := by
  constructor
  · intro h
    constructor
    · unfold get_recent_actions_events
      rw [h]
    · unfold get_workflow_status
      rw [h]
  · intro h
    constructor
    · unfold get_recent_actions_events
      rw [h]
      simp only [jsonLoad, bind_ok_eq, pure_eq_ok]
      rw [pySliceFrom]
      simp
    · unfold get_workflow_status
      rw [h]
      simp [jsonLoad, bind_ok_eq, pure_eq_ok]

theorem c9_empty_store_witness :
    (get_recent_actions_events emptyFS 10 = .ok (.message noEventsMsg) ∧
      get_workflow_status emptyFS none = .ok (.message noEventsMsg)) ∧
    (get_recent_actions_events fsEmptyStore 10 = .ok (.events []) ∧
      get_workflow_status fsEmptyStore none = .ok (.message noEventsMsg)) :=
  ⟨(c9_empty_store emptyFS 10 none).1 rfl, (c9_empty_store fsEmptyStore 10 none).2 rfl⟩

/-- C6 counterexample: badReq has a JSON-parseable body, yet the handler
answers 400 and performs no append (the store file still does not exist
afterwards), refuting the claim that every well-formed request performs
exactly one append. -/
theorem c6_malformed_counterexample :
    badReq.body.isSome = true ∧
    handle_webhook emptyFS badReq =
      (emptyFS, errResponse (.attributeError "object has no attribute get")) ∧
    (handle_webhook emptyFS badReq).1 EVENTS_FILE_WEBHOOK = none :=
  ⟨rfl, rfl, rfl⟩

/-- C6 amended: a request whose body is not JSON is answered 400 with an
error payload, with no append and the filesystem unchanged; a request
whose body parses as JSON performs exactly one append (appending one
normalized event and truncating to the last 100) provided the event
extraction succeeds (top-level object; repository and sender, when
present, are objects) and the existing store file loads. -/
theorem c6_webhook_append_amended (fs : FS) (req : Request) :
    (req.body = none → handle_webhook fs req = (fs, errResponse .jsonDecodeError)) ∧
    (∀ (data : JVal) (ev : Event) (old : List Event), req.body = some data →
      extractEvent req.now (req.eventHeader.getD "unknown") data = .ok ev →
      readStored fs = .ok old →
      handle_webhook fs req =
        (updateFS fs EVENTS_FILE_WEBHOOK (.events (appendEvent old ev)), okResponse)) := by
  constructor
  · intro hb
    unfold handle_webhook webhookTry
    rw [hb]
    rfl
  · intro data ev old hb hx ho
    unfold handle_webhook webhookTry
    rw [hb]
    simp only [pure_eq_ok, bind_ok_eq, hx, ho]

theorem c6_webhook_append_amended_witness :
    handle_webhook emptyFS reqNone = (emptyFS, errResponse .jsonDecodeError) ∧
    handle_webhook emptyFS goodReq =
      (updateFS emptyFS EVENTS_FILE_WEBHOOK (.events (appendEvent [] goodEv)), okResponse) :=
  ⟨(c6_webhook_append_amended emptyFS reqNone).1 rfl,
   (c6_webhook_append_amended emptyFS goodReq).2 _ goodEv [] rfl rfl rfl⟩

/-- C7: suggest_template never reaches its fallback logic; its first step
awaits get_pr_templates, whose iteration over the nonexistent dict method
item raises AttributeError for every input, so the tool raises instead of
returning the feature template for unrecognized change types. -/
theorem c7_suggest_template_raises (s ct : String) :
    suggest_template s ct = .error (.attributeError attrItemMsg) := rfl

/-- C8 counterexample: with a corrupt store file both query tools let the
JSON decode failure escape (model: the Except.error side, an uncaught
exception), instead of answering a structured in-band error result. -/
theorem c8_corrupt_counterexample :
    get_recent_actions_events fsCorrupt 10 = .error .jsonDecodeError ∧
    get_workflow_status fsCorrupt none = .error .jsonDecodeError :=
  ⟨rfl, rfl⟩

/-- C8 amended: the query tools have no try/except of their own, so a
corrupt store file makes both propagate an uncaught parse fault (the
corruption is thereby surfaced loudly, never silently treated as an empty
log, but it is not converted into a structured error result either); the
template tools likewise propagate an uncaught AttributeError. -/
theorem c8_error_propagation_amended (fs : FS) (raw : String) (k : Int)
    (filt : Option String) (h : fs EVENTS_FILE_SERVER = some (.corrupt raw)) :
    get_recent_actions_events fs k = .error .jsonDecodeError ∧
    get_workflow_status fs filt = .error .jsonDecodeError ∧
    (∀ a b : String, suggest_template a b = .error (.attributeError attrItemMsg)) := by
  refine ⟨?_, ?_, fun a b => rfl⟩
  · unfold get_recent_actions_events
    rw [h]
    rfl
  · unfold get_workflow_status
    rw [h]
    rfl

theorem c8_error_propagation_amended_witness :
    get_recent_actions_events fsCorrupt 5 = .error .jsonDecodeError ∧
    get_workflow_status fsCorrupt (some "CI") = .error .jsonDecodeError ∧
    suggest_template "summary" "docs" = .error (.attributeError attrItemMsg) := by
  have h := c8_error_propagation_amended fsCorrupt "this is not JSON" 5 (some "CI") rfl
  exact ⟨h.1, h.2.1, h.2.2 "summary" "docs"⟩

theorem assocFind_mem {α β : Type} [DecidableEq α] {l : List (α × β)} {k : α} {b : β}
    (h : assocFind l k = some b) : (k, b) ∈ l := by
  induction l with
  | nil => simp [assocFind] at h
  | cons p t ih =>
      obtain ⟨a, c⟩ := p
      rw [assocFind] at h
      by_cases hak : a = k
      · rw [if_pos hak] at h
        obtain rfl := Option.some.inj h
        subst hak
        exact List.mem_cons_self _ _
      · rw [if_neg hak] at h
        exact List.mem_cons_of_mem _ (ih h)

theorem assocFind_assocSet_self {α β : Type} [DecidableEq α] (l : List (α × β)) (k : α) (v : β) :
    assocFind (assocSet l k v) k = some v := by
  induction l with
  | nil => simp [assocSet, assocFind]
  | cons p t ih =>
      obtain ⟨a, c⟩ := p
      rw [assocSet]
      by_cases hak : a = k
      · rw [if_pos hak, assocFind, if_pos rfl]
      · rw [if_neg hak, assocFind, if_neg hak]
        exact ih

theorem assocFind_assocSet_other {α β : Type} [DecidableEq α] (l : List (α × β))
    (k k' : α) (v : β) (h : k' ≠ k) :
    assocFind (assocSet l k v) k' = assocFind l k' := by
  induction l with
  | nil =>
      simp only [assocSet, assocFind]
      rw [if_neg (fun hc => h hc.symm)]
  | cons p t ih =>
      obtain ⟨a, c⟩ := p
      rw [assocSet]
      by_cases hak : a = k
      · rw [if_pos hak, assocFind, if_neg (fun hc => h hc.symm), assocFind, hak,
          if_neg (fun hc => h hc.symm)]
      · rw [if_neg hak, assocFind, assocFind]
        by_cases hak' : a = k'
        · rw [if_pos hak', if_pos hak']
        · rw [if_neg hak', if_neg hak']
          exact ih

theorem mem_assocSet {α β : Type} [DecidableEq α] {l : List (α × β)} {k : α} {v : β}
    {p : α × β} (h : p ∈ assocSet l k v) : p = (k, v) ∨ p ∈ l := by
  induction l with
  | nil =>
      rw [assocSet] at h
      simp at h
      exact Or.inl h
  | cons q t ih =>
      obtain ⟨a, c⟩ := q
      rw [assocSet] at h
      by_cases hak : a = k
      · rw [if_pos hak] at h
        rcases List.mem_cons.mp h with h1 | h2
        · exact Or.inl h1
        · exact Or.inr (List.mem_cons_of_mem _ h2)
      · rw [if_neg hak] at h
        rcases List.mem_cons.mp h with h1 | h2
        · exact Or.inr (h1 ▸ List.mem_cons_self _ _)
        · rcases ih h2 with h3 | h4
          · exact Or.inl h3
          · exact Or.inr (List.mem_cons_of_mem _ h4)

theorem goodRun_destruct (v : JVal) (hv : goodRun v = true) :
    ∃ fields n u sv rv hu,
      v = JVal.obj fields ∧
      lookupField fields "name" = some (JVal.s n) ∧
      lookupField fields "updated_at" = some (JVal.s u) ∧
      lookupField fields "status" = some sv ∧
      lookupField fields "run_number" = some rv ∧
      lookupField fields "html_url" = some hu := by
  cases v with
  | null => simp [goodRun] at hv
  | s x => simp [goodRun] at hv
  | i x => simp [goodRun] at hv
  | obj fields =>
      simp only [goodRun, Bool.and_eq_true] at hv
      obtain ⟨⟨⟨⟨hn, hu⟩, hs⟩, hr⟩, hh⟩ := hv
      cases hlf : lookupField fields "name" with
      | none => rw [hlf] at hn; simp at hn
      | some nv =>
          cases nv with
          | null => rw [hlf] at hn; simp at hn
          | i x => rw [hlf] at hn; simp at hn
          | obj f2 => rw [hlf] at hn; simp at hn
          | s n =>
              cases hlu : lookupField fields "updated_at" with
              | none => rw [hlu] at hu; simp at hu
              | some uv =>
                  cases uv with
                  | null => rw [hlu] at hu; simp at hu
                  | i x => rw [hlu] at hu; simp at hu
                  | obj f2 => rw [hlu] at hu; simp at hu
                  | s u =>
                      obtain ⟨sv, hsv⟩ := Option.isSome_iff_exists.mp hs
                      obtain ⟨rv, hrv⟩ := Option.isSome_iff_exists.mp hr
                      obtain ⟨hv2, hhv⟩ := Option.isSome_iff_exists.mp hh
                      exact ⟨fields, n, u, sv, rv, hv2, rfl, hlf, hlu, hsv, hrv, hhv⟩

theorem goodRun_not_null (v : JVal) (hv : goodRun v = true) : v.isNull = false := by
  obtain ⟨fields, _, _, _, _, _, rfl, _⟩ := goodRun_destruct v hv
  rfl

theorem wsUpd_parseRun (v : JVal) : wsUpd (parseRun v) = runUpdatedAt v := rfl

theorem charsLtb_iff (l1 : List Char) :
    ∀ l2 : List Char, charsLtb l1 l2 = true ↔ l1 < l2 := by
  induction l1 with
  | nil =>
      intro l2
      cases l2 with
      | nil =>
          constructor
          · intro h
            cases h
          · intro h
            cases h
      | cons d ds =>
          constructor
          · intro _
            exact List.Lex.nil
          · intro _
            rfl
  | cons c cs ih =>
      intro l2
      cases l2 with
      | nil =>
          constructor
          · intro h
            cases h
          · intro h
            cases h
      | cons d ds =>
          rw [charsLtb]
          by_cases h1 : c < d
          · rw [if_pos h1]
            constructor
            · intro _
              exact List.Lex.rel h1
            · intro _
              rfl
          · rw [if_neg h1]
            by_cases h2 : d < c
            · rw [if_pos h2]
              constructor
              · intro h
                cases h
              · intro h
                cases h with
                | cons h3 => exact absurd h2 (lt_irrefl c)
                | rel h3 => exact absurd h3 h1
            · rw [if_neg h2]
              have heq : c = d := le_antisymm (not_lt.mp h2) (not_lt.mp h1)
              subst heq
              constructor
              · intro h
                exact List.Lex.cons ((ih ds).mp h)
              · intro h
                cases h with
                | cons h3 => exact (ih ds).mpr h3
                | rel h3 => exact absurd h3 h1

theorem strLtb_iff (a b : String) : strLtb a b = true ↔ a < b := by
  rw [String.lt_iff_toList_lt]
  exact charsLtb_iff a.data b.data

theorem wsStep_good (ws : Workflows) (v : JVal) (hv : goodRun v = true) (hws : goodWS ws) :
    wsStep ws v = Except.ok (pureStep ws v) := by
  obtain ⟨fields, n, u, sv, rv, hu2, rfl, hlf, hlu, hsv, hrv, hhv⟩ := goodRun_destruct v hv
  have hRN : runName (JVal.obj fields) = n := by simp [runName, jField, hlf]
  have hRU : runUpdatedAt (JVal.obj fields) = u := by simp [runUpdatedAt, jField, hlu]
  cases hfind : assocFind ws (PyKey.s n) with
  | none =>
      simp [wsStep, jIndex, hlf, hlu, hsv, hrv, hhv, toKey, jGet, hfind,
            pureStep, hRN, bind_ok_eq, pure_eq_ok, parseRun, jField]
  | some prev =>
      obtain ⟨pu, hpu0⟩ := hws (PyKey.s n, prev) (assocFind_mem hfind)
      have hpu : prev.updated_at = JVal.s pu := hpu0
      have hW : wsUpd prev = pu := by simp [wsUpd, hpu]
      by_cases hcmp : pu < u
      · have hb : strLtb pu u = true := (strLtb_iff pu u).mpr hcmp
        simp [wsStep, jIndex, hlf, hlu, hsv, hrv, hhv, toKey, jGet, hfind, hpu, pyGt, hb,
              hcmp, pureStep, hRN, hRU, hW, bind_ok_eq, pure_eq_ok, parseRun, jField]
      · have hb : strLtb pu u = false := by
          cases hsb : strLtb pu u
          · rfl
          · exact absurd ((strLtb_iff pu u).mp hsb) hcmp
        simp [wsStep, jIndex, hlf, hlu, hsv, hrv, hhv, toKey, jGet, hfind, hpu, pyGt, hb,
              hcmp, pureStep, hRN, hRU, hW, bind_ok_eq, pure_eq_ok]

theorem goodWS_pureStep (ws : Workflows) (v : JVal) (hv : goodRun v = true)
    (hws : goodWS ws) : goodWS (pureStep ws v) := by
  obtain ⟨fields, n, u, sv, rv, hu2, rfl, hlf, hlu, hsv, hrv, hhv⟩ := goodRun_destruct v hv
  have hgood : ∃ w, (parseRun (JVal.obj fields)).updated_at = JVal.s w := by
    refine ⟨u, ?_⟩
    simp [parseRun, jField, hlu]
  intro p hp
  rw [pureStep] at hp
  rcases hfind : assocFind ws (PyKey.s (runName (JVal.obj fields))) with _ | prev
  all_goals rw [hfind] at hp
  · rcases mem_assocSet hp with h1 | h2
    · rw [h1]
      exact hgood
    · exact hws p h2
  · have hp' : p ∈ (if wsUpd prev < runUpdatedAt (JVal.obj fields)
        then assocSet ws (PyKey.s (runName (JVal.obj fields))) (parseRun (JVal.obj fields))
        else ws) := hp
    by_cases hcmp : wsUpd prev < runUpdatedAt (JVal.obj fields)
    · rw [if_pos hcmp] at hp'
      rcases mem_assocSet hp' with h1 | h2
      · rw [h1]
        exact hgood
      · exact hws p h2
    · rw [if_neg hcmp] at hp'
      exact hws p hp'

theorem goodWS_nil : goodWS [] := by
  intro p hp
  simp at hp

theorem wsFold_good (evs : List Event) (hg : ∀ e ∈ evs, goodRun e.workflow_run = true) :
    ∀ ws, goodWS ws →
      (evs.foldlM (fun ws e => wsStep ws e.workflow_run) ws : Except PyErr Workflows)
        = .ok (evs.foldl (fun ws e => pureStep ws e.workflow_run) ws) := by
  induction evs with
  | nil =>
      intro ws _
      rfl
  | cons e t ih =>
      intro ws hws
      have he : goodRun e.workflow_run = true := hg e (List.mem_cons_self _ _)
      have ht : ∀ x ∈ t, goodRun x.workflow_run = true :=
        fun x hx => hg x (List.mem_cons_of_mem _ hx)
      rw [List.foldlM_cons, wsStep_good ws e.workflow_run he hws, List.foldl_cons]
      show (Except.ok (pureStep ws e.workflow_run) >>= fun b =>
          List.foldlM (fun ws e => wsStep ws e.workflow_run) b t) = _
      rw [bind_ok_eq]
      exact ih ht _ (goodWS_pureStep ws e.workflow_run he hws)

theorem InvP_nil : InvP [] [] := by
  intro nm
  constructor
  · intro _ v hv
    simp at hv
  · intro r hr
    simp [assocFind] at hr

theorem InvP_step (done : List JVal) (ws : Workflows) (v : JVal)
    (h : InvP done ws) : InvP (done ++ [v]) (pureStep ws v) := by
  intro nm
  by_cases hn : runName v = nm
  · subst hn
    cases hfind : assocFind ws (PyKey.s (runName v)) with
    | none =>
        have hres : pureStep ws v = assocSet ws (PyKey.s (runName v)) (parseRun v) := by
          rw [pureStep, hfind]
        constructor
        · intro h0
          rw [hres, assocFind_assocSet_self] at h0
          cases h0
        · intro r hr
          rw [hres, assocFind_assocSet_self] at hr
          obtain rfl : parseRun v = r := Option.some.inj hr
          constructor
          · exact ⟨v, by simp, rfl, rfl⟩
          · intro x hx hxn
            rcases List.mem_append.mp hx with hx1 | hx2
            · exact absurd hxn ((h (runName v)).1 hfind x hx1)
            · simp at hx2
              subst hx2
              rw [wsUpd_parseRun]
    | some prev =>
        obtain ⟨⟨w, hw, hwn, hwr⟩, hmax⟩ := (h (runName v)).2 prev hfind
        by_cases hcmp : wsUpd prev < runUpdatedAt v
        · have hres : pureStep ws v = assocSet ws (PyKey.s (runName v)) (parseRun v) := by
            rw [pureStep, hfind]
            exact if_pos hcmp
          constructor
          · intro h0
            rw [hres, assocFind_assocSet_self] at h0
            cases h0
          · intro r hr
            rw [hres, assocFind_assocSet_self] at hr
            obtain rfl : parseRun v = r := Option.some.inj hr
            constructor
            · exact ⟨v, by simp, rfl, rfl⟩
            · intro x hx hxn
              rcases List.mem_append.mp hx with hx1 | hx2
              · calc runUpdatedAt x ≤ wsUpd prev := hmax x hx1 hxn
                  _ ≤ runUpdatedAt v := le_of_lt hcmp
                  _ = wsUpd (parseRun v) := (wsUpd_parseRun v).symm
              · simp at hx2
                subst hx2
                rw [wsUpd_parseRun]
        · have hres : pureStep ws v = ws := by
            rw [pureStep, hfind]
            exact if_neg hcmp
          constructor
          · intro h0
            rw [hres, hfind] at h0
            cases h0
          · intro r hr
            rw [hres, hfind] at hr
            obtain rfl : prev = r := Option.some.inj hr
            constructor
            · exact ⟨w, List.mem_append_left _ hw, hwn, hwr⟩
            · intro x hx hxn
              rcases List.mem_append.mp hx with hx1 | hx2
              · exact hmax x hx1 hxn
              · simp at hx2
                subst hx2
                exact not_lt.mp hcmp
  · have hkey : PyKey.s nm ≠ PyKey.s (runName v) := by
      intro hc
      exact hn (PyKey.s.inj hc).symm
    have hsame : assocFind (pureStep ws v) (PyKey.s nm) = assocFind ws (PyKey.s nm) := by
      cases hfind : assocFind ws (PyKey.s (runName v)) with
      | none =>
          have hres : pureStep ws v = assocSet ws (PyKey.s (runName v)) (parseRun v) := by
            rw [pureStep, hfind]
          rw [hres]
          exact assocFind_assocSet_other ws _ _ _ hkey
      | some prev =>
          by_cases hcmp : wsUpd prev < runUpdatedAt v
          · have hres : pureStep ws v = assocSet ws (PyKey.s (runName v)) (parseRun v) := by
              rw [pureStep, hfind]
              exact if_pos hcmp
            rw [hres]
            exact assocFind_assocSet_other ws _ _ _ hkey
          · have hres : pureStep ws v = ws := by
              rw [pureStep, hfind]
              exact if_neg hcmp
            rw [hres]
    constructor
    · intro h0 x hx
      rw [hsame] at h0
      rcases List.mem_append.mp hx with hx1 | hx2
      · exact (h nm).1 h0 x hx1
      · simp at hx2
        subst hx2
        exact hn
    · intro r hr
      rw [hsame] at hr
      obtain ⟨⟨w, hw, hwn, hwr⟩, hmax⟩ := (h nm).2 r hr
      constructor
      · exact ⟨w, List.mem_append_left _ hw, hwn, hwr⟩
      · intro x hx hxn
        rcases List.mem_append.mp hx with hx1 | hx2
        · exact hmax x hx1 hxn
        · simp at hx2
          subst hx2
          exact absurd hxn hn

theorem foldl_pureStep_inv (evs : List Event) :
    ∀ (ws : Workflows) (done : List JVal), InvP done ws →
      InvP (done ++ evs.map (fun e => e.workflow_run))
        (evs.foldl (fun ws e => pureStep ws e.workflow_run) ws) := by
  induction evs with
  | nil =>
      intro ws done h
      simpa using h
  | cons e t ih =>
      intro ws done h
      have h1 := InvP_step done ws e.workflow_run h
      have h2 := ih (pureStep ws e.workflow_run) (done ++ [e.workflow_run]) h1
      rw [List.foldl_cons, List.map_cons]
      have hl : done ++ e.workflow_run :: t.map (fun e => e.workflow_run) =
          (done ++ [e.workflow_run]) ++ t.map (fun e => e.workflow_run) := by
        simp
      rw [hl]
      exact h2

/-- C4: on any stored log of normalized events whose workflow_run fields
are either null or well-shaped run objects, the unfiltered query maps
each workflow name that occurs to a record built from one of the events
bearing that name whose updated_at string is greatest (lexicographically)
among events with that name; in particular, for two events named CI dated
2024-01-01 and 2024-01-02, the second one's record is returned. -/
theorem c4_latest_per_workflow :
    (∀ (fs : FS) (events : List Event) (name : String),
      fs EVENTS_FILE_SERVER = some (.events events) →
      (∀ e ∈ events, e.workflow_run.isNull = true ∨ goodRun e.workflow_run = true) →
      (∃ e ∈ events, goodRun e.workflow_run = true ∧ runName e.workflow_run = name) →
      ∃ ws r, get_workflow_status fs none = .ok (.workflows ws) ∧
        assocFind ws (PyKey.s name) = some r ∧
        (∃ e ∈ events, goodRun e.workflow_run = true ∧ runName e.workflow_run = name ∧
          parseRun e.workflow_run = r) ∧
        (∀ e ∈ events, goodRun e.workflow_run = true → runName e.workflow_run = name →
          runUpdatedAt e.workflow_run ≤ wsUpd r)) ∧
    get_workflow_status fsTwo none =
      .ok (.workflows [(PyKey.s "CI", parseRun sampleRun2)]) := by
  constructor
  · intro fs events name hfs hGood hEx
    have hgAll : ∀ e ∈ events.filter (fun e => !e.workflow_run.isNull),
        goodRun e.workflow_run = true := by
      intro e he
      obtain ⟨hmem, hpred⟩ := List.mem_filter.mp he
      rcases hGood e hmem with h1 | h2
      · rw [h1] at hpred
        simp at hpred
      · exact h2
    obtain ⟨e0, he0, hg0, hn0⟩ := hEx
    have hne : events.isEmpty = false := by
      cases events with
      | nil => simp at he0
      | cons a l => rfl
    have hcore : getWSCore events none =
        .ok ((events.filter (fun e => !e.workflow_run.isNull)).foldl
          (fun ws e => pureStep ws e.workflow_run) []) := by
      unfold getWSCore
      have ht : pyTruthy none = false := rfl
      rw [ht, if_neg (by simp)]
      exact wsFold_good _ hgAll [] goodWS_nil
    have htool : get_workflow_status fs none =
        .ok (.workflows ((events.filter (fun e => !e.workflow_run.isNull)).foldl
          (fun ws e => pureStep ws e.workflow_run) [])) := by
      unfold get_workflow_status
      rw [hfs]
      simp only [jsonLoad, bind_ok_eq]
      rw [if_neg (by rw [hne]; simp), hcore]
      rfl
    have hinv0 := foldl_pureStep_inv (events.filter (fun e => !e.workflow_run.isNull)) [] []
      InvP_nil
    have hinv : InvP ((events.filter (fun e => !e.workflow_run.isNull)).map
        (fun e => e.workflow_run))
        ((events.filter (fun e => !e.workflow_run.isNull)).foldl
          (fun ws e => pureStep ws e.workflow_run) []) := by
      simpa using hinv0
    have he0f : e0 ∈ events.filter (fun e => !e.workflow_run.isNull) :=
      List.mem_filter.mpr ⟨he0, by rw [goodRun_not_null _ hg0]; rfl⟩
    cases hr : assocFind ((events.filter (fun e => !e.workflow_run.isNull)).foldl
        (fun ws e => pureStep ws e.workflow_run) []) (PyKey.s name) with
    | none =>
        exact absurd hn0 ((hinv name).1 hr e0.workflow_run (List.mem_map_of_mem _ he0f))
    | some r =>
        obtain ⟨⟨wv, hwm, hwn, hwr⟩, hmax⟩ := (hinv name).2 r hr
        obtain ⟨e1, he1f, rfl⟩ := List.mem_map.mp hwm
        refine ⟨_, r, htool, hr,
          ⟨e1, (List.mem_filter.mp he1f).1, hgAll e1 he1f, hwn, hwr⟩, ?_⟩
        intro x hx hgx hnx
        have hxf : x ∈ events.filter (fun e => !e.workflow_run.isNull) :=
          List.mem_filter.mpr ⟨hx, by rw [goodRun_not_null _ hgx]; rfl⟩
        exact hmax x.workflow_run (List.mem_map_of_mem _ hxf) hnx
  · rfl

theorem c4_latest_per_workflow_witness :
    ∃ ws r, get_workflow_status fsTwo none = .ok (.workflows ws) ∧
      assocFind ws (PyKey.s "CI") = some r ∧
      (∃ e ∈ [mkWfEvent sampleRun1, mkWfEvent sampleRun2],
        goodRun e.workflow_run = true ∧ runName e.workflow_run = "CI" ∧
        parseRun e.workflow_run = r) ∧
      (∀ e ∈ [mkWfEvent sampleRun1, mkWfEvent sampleRun2],
        goodRun e.workflow_run = true → runName e.workflow_run = "CI" →
        runUpdatedAt e.workflow_run ≤ wsUpd r) :=
  c4_latest_per_workflow.1 fsTwo [mkWfEvent sampleRun1, mkWfEvent sampleRun2] "CI"
    rfl (by decide) (by decide)

/-- C5 counterexample: the stored log contains one event whose
workflow_run is a well-shaped run object named CI, yet filtering by
name = CI returns an empty mapping with no entry for CI, because line 182
compares the whole workflow_run value (a dict) with the filter string. -/
theorem c5_filter_counterexample :
    (∃ e ∈ [mkWfEvent sampleRun1], goodRun e.workflow_run = true ∧
      runName e.workflow_run = "CI") ∧
    fsCI EVENTS_FILE_SERVER = some (.events [mkWfEvent sampleRun1]) ∧
    get_workflow_status fsCI (some "CI") = .ok (.workflows []) ∧
    ¬ ∃ ws r, get_workflow_status fsCI (some "CI") = .ok (.workflows ws) ∧
        assocFind ws (PyKey.s "CI") = some r := by
  refine ⟨⟨mkWfEvent sampleRun1, by simp, by decide, rfl⟩, rfl, rfl, ?_⟩
  rintro ⟨ws, r, hws, hr⟩
  have h0 : get_workflow_status fsCI (some "CI") = .ok (.workflows []) := rfl
  rw [h0] at hws
  obtain rfl : ([] : Workflows) = ws := by
    have := Except.ok.inj hws
    cases this
    rfl
  simp [assocFind] at hr

/-- C5 amended: when a non-empty name filter is given, the query compares
the filter string against each event's entire workflow_run value (not
against workflowRun.name), so whenever no stored workflow_run is itself
the string equal to the filter — in particular whenever workflow_run
fields are records or null — the filtered result is empty. -/
theorem c5_filtered_query_amended (fs : FS) (events : List Event) (name : String)
    (h : fs EVENTS_FILE_SERVER = some (.events events)) (hne : events ≠ [])
    (hname : name.isEmpty = false)
    (hwr : ∀ e ∈ events, jEqStr e.workflow_run name = false) :
    get_workflow_status fs (some name) = .ok (.workflows []) := by
  unfold get_workflow_status
  rw [h]
  simp only [jsonLoad, bind_ok_eq]
  have hE : events.isEmpty = false := by
    cases events with
    | nil => exact absurd rfl hne
    | cons a l => rfl
  rw [if_neg (by rw [hE]; simp)]
  have hcore : getWSCore events (some name) = .ok [] := by
    unfold getWSCore
    have ht : pyTruthy (some name) = true := by
      simp [pyTruthy, hname]
    rw [ht, if_pos rfl]
    have hfilter : events.filter (fun e => jEqStr e.workflow_run ((some name).getD "")) = [] := by
      rw [List.filter_eq_nil_iff]
      intro a ha
      simp [hwr a ha]
    rw [hfilter]
    rfl
  rw [hcore]
  rfl

theorem c5_filtered_query_amended_witness :
    get_workflow_status fsCI (some "deploy") = .ok (.workflows []) :=
  c5_filtered_query_amended fsCI [mkWfEvent sampleRun1] "deploy" rfl (by simp) rfl
    (by decide)
